import Mathlib

/-!
Verification development for the SLURM job-dependency orchestration script
(src/test/slurm/test_job_dependencies.py of the ClusterOS repository).

The script is shallowly embedded: each Python function becomes a Lean
function over explicit oracles for the outside world (shell command
outcomes, scheduler observations, the artifact filesystem).  Python
code that can raise an exception is modelled with the PyResult type.
-/

/-- Result of running a piece of Python code: either a normal value or a
propagating exception carrying the exception name. -/
inductive PyResult (α : Type) : Type where
  | ok : α → PyResult α
  | exn : String → PyResult α
deriving DecidableEq, Repr

/-- Outcome of one shell command as seen by subprocess.run inside
run_command: the process completed with an exit code, stdout and stderr;
or the 60 second timeout fired (subprocess.TimeoutExpired); or some other
exception was raised with a message. -/
inductive CmdOutcome : Type where
  | completed : Int → String → String → CmdOutcome
  | timedOut : CmdOutcome
  | raised : String → CmdOutcome
deriving DecidableEq, Repr

/-- Embedding of Python str.strip with no arguments: remove leading and
trailing whitespace characters. -/
def pyStrip (s : String) : String :=
  List.asString (((s.data.dropWhile Char.isWhitespace).reverse.dropWhile Char.isWhitespace).reverse)

/-- Embedding of run_command (test_job_dependencies.py lines 15-23).
Given the outcome of the underlying shell command it returns the triple
(success, output, error); it can not raise: a completed process gives
(returncode == 0, stdout stripped, stderr stripped), a timeout gives
(False, "", "Command timed out"), any other exception gives
(False, "", str(e)). -/
def runCommand (o : CmdOutcome) : Bool × String × String :=
  match o with
  | .completed rc out err => (rc == 0, pyStrip out, pyStrip err)
  | .timedOut => (false, "", "Command timed out")
  | .raised msg => (false, "", msg)

/-- Fueled worker for the embedding of Python str.split with no
arguments: split on runs of whitespace, discarding empty pieces.  The
fuel argument only forces termination; splitTokens always supplies
enough fuel. -/
def splitTokensAux : Nat → List Char → List (List Char)
  | 0, _ => []
  | _, [] => []
  | fuel + 1, c :: cs =>
    if c.isWhitespace then splitTokensAux fuel cs
    else ((c :: cs).takeWhile (fun d => !d.isWhitespace)) ::
      splitTokensAux fuel ((c :: cs).dropWhile (fun d => !d.isWhitespace))

/-- Embedding of Python str.split with no arguments. -/
def splitTokens (l : List Char) : List (List Char) :=
  splitTokensAux l.length l

/-- Embedding of the job-id extraction expression output.split()[-1]
used after every sbatch call (lines 97, 111, 125): the last
whitespace-separated token of the submission output.  none models the
IndexError that Python raises when the output holds no token. -/
def extractJobId (s : String) : Option String :=
  (splitTokens s.data).getLast?.map List.asString

/-- Embedding of the Python substring test pat in hay over char lists:
true exactly when pat occurs contiguously inside hay. -/
def pyContains (hay pat : List Char) : Bool :=
  (List.range (hay.length + 1)).any (fun i => pat.isPrefixOf (hay.drop i))

/-- String form of pyContains. -/
def pyContainsStr (hay pat : String) : Bool :=
  pyContains hay.data pat.data

/-- Fueled worker for the embedding of Python str.replace: replace the
non-overlapping occurrences of old, scanning left to right, never
re-scanning freshly inserted text.  The fuel argument only forces
termination; pyReplace always supplies enough fuel.  (Python treats an
empty old pattern specially; every replacement in the script uses a
non-empty marker, for which the semantics below is exact.) -/
def pyReplaceAux : Nat → List Char → List Char → List Char → List Char
  | 0, l, _, _ => l
  | _, [], _, _ => []
  | fuel + 1, c :: cs, old, new =>
    if old ≠ [] ∧ old.isPrefixOf (c :: cs) = true then
      new ++ pyReplaceAux fuel ((c :: cs).drop old.length) old new
    else
      c :: pyReplaceAux fuel cs old new

/-- Embedding of Python str.replace over char lists. -/
def pyReplace (l old new : List Char) : List Char :=
  pyReplaceAux l.length l old new

/-- Embedding of the rendering step of the script, for example
job2_script.replace(given marker, given id) at line 101: plain textual
replacement of the dependency marker by the bound external id. -/
def renderTemplate (t marker value : String) : String :=
  List.asString (pyReplace t.data marker.data value.data)

/-- Embedding of the expression output.strip().split(chr 10)[0] at
line 151: the first line of an already stripped string. -/
def firstLine (s : String) : String :=
  List.asString (s.data.takeWhile (fun c => c ≠ '\n'))

/-- Body of job 1 (test_job_dependencies.py lines 33-43), the Python
f-string with the hostname interpolated.  It declares no dependency. -/
def job1Script (hostname : String) : String :=
  String.intercalate "\n"
    ["#!/bin/bash",
     "#SBATCH --job-name=dep_test_1",
     "#SBATCH --output=/tmp/dep_test_1_%j.out",
     "#SBATCH --error=/tmp/dep_test_1_%j.err",
     "",
     "echo \"Job 1: Data preparation started on " ++ hostname ++ "\"",
     "date",
     "echo \"Creating test data...\"",
     "echo \"test_data_123\" > /tmp/dep_test_data.txt",
     "echo \"Job 1 completed successfully\"",
     ""]

/-- Template of job 2 (lines 46-64): depends on job 1 through the
textual marker after afterok, to be replaced by the external id of
job 1 before submission. -/
def job2Template (hostname : String) : String :=
  String.intercalate "\n"
    ["#!/bin/bash",
     "#SBATCH --job-name=dep_test_2",
     "#SBATCH --output=/tmp/dep_test_2_%j.out",
     "#SBATCH --error=/tmp/dep_test_2_%j.err",
     "#SBATCH --dependency=afterok:$JOB1_ID",
     "",
     "echo \"Job 2: Data processing started on " ++ hostname ++ "\"",
     "date",
     "echo \"Reading test data...\"",
     "if [ -f /tmp/dep_test_data.txt ]; then",
     "    data=$(cat /tmp/dep_test_data.txt)",
     "    echo \"Data read: $data\"",
     "    echo \"processed_$data\" > /tmp/dep_test_processed.txt",
     "    echo \"Job 2 completed successfully\"",
     "else",
     "    echo \"ERROR: Test data not found!\"",
     "    exit 1",
     "fi",
     ""]

/-- Template of job 3 (lines 67-85): depends on job 2 through the
textual marker after afterok. -/
def job3Template (hostname : String) : String :=
  String.intercalate "\n"
    ["#!/bin/bash",
     "#SBATCH --job-name=dep_test_3",
     "#SBATCH --output=/tmp/dep_test_3_%j.out",
     "#SBATCH --error=/tmp/dep_test_3_%j.err",
     "#SBATCH --dependency=afterok:$JOB2_ID",
     "",
     "echo \"Job 3: Analysis started on " ++ hostname ++ "\"",
     "date",
     "echo \"Analyzing processed data...\"",
     "if [ -f /tmp/dep_test_processed.txt ]; then",
     "    data=$(cat /tmp/dep_test_processed.txt)",
     "    echo \"Analysis result: $data\"",
     "    echo \"Final result: analysis_complete\" > /tmp/dep_test_final.txt",
     "    echo \"Job 3 completed successfully\"",
     "else",
     "    echo \"ERROR: Processed data not found!\"",
     "    exit 1",
     "fi",
     ""]

/-- Observable trace of submit_dependent_jobs: the returned triple of
job ids (result, with exn for a propagating IndexError), how many sbatch
invocations were issued, and the rendered bodies actually written for
jobs 2 and 3 (none when the run aborted before rendering them). -/
structure SubmitTrace where
  result : PyResult (Option String × Option String × Option String)
  calls : Nat
  job2Rendered : Option String
  job3Rendered : Option String
deriving DecidableEq, Repr

/-- Embedding of submit_dependent_jobs (lines 26-128).  The oracle sub
gives the outcome of the i-th sbatch shell command.  The function
submits job 1, extracts its id from the sbatch output, renders the
job 2 template with that id, submits job 2, and likewise for job 3; on
the first failed submission it returns early with the ids obtained so
far (None for the rest), issuing no further sbatch call. -/
def submitDependentJobs (sub : Nat → CmdOutcome) (hostname : String) : SubmitTrace :=
  let r1 := runCommand (sub 0)
  if r1.1 = false then
    ⟨.ok (none, none, none), 1, none, none⟩
  else
    match extractJobId r1.2.1 with
    | none => ⟨.exn "IndexError", 1, none, none⟩
    | some job1Id =>
      let j2body := renderTemplate (job2Template hostname) "$JOB1_ID" job1Id
      let r2 := runCommand (sub 1)
      if r2.1 = false then
        ⟨.ok (some job1Id, none, none), 2, some j2body, none⟩
      else
        match extractJobId r2.2.1 with
        | none => ⟨.exn "IndexError", 2, some j2body, none⟩
        | some job2Id =>
          let j3body := renderTemplate (job3Template hostname) "$JOB2_ID" job2Id
          let r3 := runCommand (sub 2)
          if r3.1 = false then
            ⟨.ok (some job1Id, some job2Id, none), 3, some j2body, some j3body⟩
          else
            match extractJobId r3.2.1 with
            | none => ⟨.exn "IndexError", 3, some j2body, some j3body⟩
            | some job3Id =>
              ⟨.ok (some job1Id, some job2Id, some job3Id), 3, some j2body, some j3body⟩

/-- Scheduler observation for one job on one polling tick: the outcome
of the squeue query and the outcome of the sacct query. -/
structure PollObs where
  squeue : CmdOutcome
  sacct : CmdOutcome
deriving DecidableEq, Repr

/-- Classification the body of the wait_for_jobs loop gives one job on
one tick: still listed by squeue, accounted COMPLETED, accounted FAILED
or CANCELLED, or not classifiable yet. -/
inductive ObsClass : Type where
  | inQueue | completedCls | failedCls | indeterminate
deriving DecidableEq, Repr

/-- Embedding of the per-job body of the polling loop
(lines 143-159): if squeue output is non-empty the job is still in the
queue; otherwise sacct is consulted and its first output line is
searched for COMPLETED, then for FAILED or CANCELLED. -/
def classifyObs (o : PollObs) : ObsClass :=
  if pyStrip (runCommand o.squeue).2.1 ≠ "" then .inQueue
  else
    if (runCommand o.sacct).1 = true ∧ pyStrip (runCommand o.sacct).2.1 ≠ "" then
      if pyContainsStr (firstLine (pyStrip (runCommand o.sacct).2.1)) "COMPLETED" = true then
        .completedCls
      else if pyContainsStr (firstLine (pyStrip (runCommand o.sacct).2.1)) "FAILED" = true ∨
          pyContainsStr (firstLine (pyStrip (runCommand o.sacct).2.1)) "CANCELLED" = true then
        .failedCls
      else .indeterminate
    else .indeterminate

/-- Loop state of one iteration of wait_for_jobs: the lists
completed_jobs and failed_jobs being rebuilt on this tick, and the
all_completed flag. -/
structure TickState where
  completedJobs : List String
  failedJobs : List String
  allCompleted : Bool
deriving DecidableEq, Repr

/-- One step of the per-job loop inside wait_for_jobs. -/
def tickStep (obs : Nat → String → PollObs) (t : Nat) (st : TickState) (j : String) : TickState :=
  match classifyObs (obs t j) with
  | .inQueue => { st with allCompleted := false }
  | .completedCls => { st with completedJobs := st.completedJobs ++ [j] }
  | .failedCls => { st with failedJobs := st.failedJobs ++ [j] }
  | .indeterminate => { st with allCompleted := false }

/-- One full iteration of the wait_for_jobs while loop at tick t: the
lists start empty and all_completed starts True, then every job id is
classified in order. -/
def classifyTick (obs : Nat → String → PollObs) (jobIds : List String) (t : Nat) : TickState :=
  jobIds.foldl (tickStep obs t) ⟨[], [], true⟩

/-- Fueled embedding of the wait_for_jobs while loop.  The fuel is the
number of further iterations the wall-clock deadline still allows; the
loop breaks early when all_completed holds, and in every case returns
the lists built by its final iteration. -/
def waitGo (obs : Nat → String → PollObs) (jobIds : List String) :
    Nat → Nat → List String × List String
  | 0, t =>
    let st := classifyTick obs jobIds t
    (st.completedJobs, st.failedJobs)
  | fuel + 1, t =>
    let st := classifyTick obs jobIds t
    if st.allCompleted = true then (st.completedJobs, st.failedJobs)
    else waitGo obs jobIds fuel (t + 1)

/-- Embedding of wait_for_jobs (lines 131-167).  The deadline
max_wait_time = 300 with the five second sleep bounds the number of
iterations; T models that bound (the script always runs the first
iteration, so T is at least 1 in any faithful instance). -/
def waitForJobs (obs : Nat → String → PollObs) (jobIds : List String) (T : Nat) :
    List String × List String :=
  waitGo obs jobIds (T - 1) 0

/-- Tick at which the embedded wait_for_jobs loop stops: the first tick
whose iteration leaves all_completed true, else the last allowed one. -/
def finalTickGo (obs : Nat → String → PollObs) (jobIds : List String) : Nat → Nat → Nat
  | 0, t => t
  | fuel + 1, t =>
    if (classifyTick obs jobIds t).allCompleted = true then t
    else finalTickGo obs jobIds fuel (t + 1)

/-- Final tick of waitForJobs with deadline T. -/
def finalTick (obs : Nat → String → PollObs) (jobIds : List String) (T : Nat) : Nat :=
  finalTickGo obs jobIds (T - 1) 0

/-- Result of reading one artifact path: the file is absent, or present
but unreadable (opening it raises), or has the given content. -/
inductive ReadResult : Type where
  | missing | unreadable | content (s : String)
deriving DecidableEq, Repr

/-- The three artifact paths verify_results expects (lines 175-179). -/
def expectedFiles : List String :=
  ["/tmp/dep_test_data.txt", "/tmp/dep_test_processed.txt", "/tmp/dep_test_final.txt"]

/-- Embedding of the first loop of verify_results (lines 181-188): walk
the expected files in order; a missing file returns False at once; an
existing file is opened and read with no try block, so an unreadable
file raises IOError out of verify_results. -/
def checkFilesExist (fs : String → ReadResult) : List String → PyResult Bool
  | [] => .ok true
  | p :: rest =>
    match fs p with
    | .missing => .ok false
    | .unreadable => .exn "IOError"
    | .content _ => checkFilesExist fs rest

/-- Embedding of the second phase of verify_results (lines 191-209):
inside one try block each file is re-read and its content predicate
checked; any exception is caught and yields False. -/
def checkContents (fs : String → ReadResult) : Bool :=
  match fs "/tmp/dep_test_data.txt" with
  | .content s1 =>
    if pyContainsStr s1 "test_data_123" = false then false
    else
      match fs "/tmp/dep_test_processed.txt" with
      | .content s2 =>
        if pyContainsStr s2 "processed_test_data_123" = false then false
        else
          match fs "/tmp/dep_test_final.txt" with
          | .content s3 => pyContainsStr s3 "analysis_complete"
          | _ => false
      | _ => false
  | _ => false

/-- Embedding of verify_results (lines 170-211). -/
def verifyResults (fs : String → ReadResult) : PyResult Bool :=
  match checkFilesExist fs expectedFiles with
  | .exn m => .exn m
  | .ok false => .ok false
  | .ok true => .ok (checkContents fs)

/-- Embedding of main (lines 214-249).  Returns the exit code (or a
propagating exception) together with the completed and failed lists the
script prints right after polling, when that point is reached.  The
check not all([job1_id, job2_id, job3_id]) uses Python truthiness: None
and the empty string both fail it. -/
def mainRun (sub : Nat → CmdOutcome) (hostname : String) (obs : Nat → String → PollObs)
    (T : Nat) (fs : String → ReadResult) :
    PyResult Int × Option (List String × List String) :=
  let st := submitDependentJobs sub hostname
  match st.result with
  | .exn m => (.exn m, none)
  | .ok (j1, j2, j3) =>
    match j1, j2, j3 with
    | some id1, some id2, some id3 =>
      if id1 = "" ∨ id2 = "" ∨ id3 = "" then (.ok 1, none)
      else
        let w := waitForJobs obs [id1, id2, id3] T
        if w.1.length ≠ 3 ∨ w.2 ≠ [] then (.ok 1, some w)
        else
          match verifyResults fs with
          | .exn m => (.exn m, some w)
          | .ok false => (.ok 1, some w)
          | .ok true => (.ok 0, some w)
    | _, _, _ => (.ok 1, none)

/-- Modelled from the spec: the Dependency Graph of section 4.2, which is
missing from src (the script hardcodes a three node chain).  Nodes are
listed in insertion order; deps n lists the ids node n depends on. -/
structure SpecGraph where
  nodes : List Nat
  deps : Nat → List Nat

/-- Modelled from the spec: readyNodes tie-break of section 4.2 — the
first remaining node, in insertion order, all of whose dependencies have
already been emitted. -/
def readyFind (g : SpecGraph) (emitted remaining : List Nat) : Option Nat :=
  remaining.find? (fun n => (g.deps n).all (fun d => emitted.contains d))

/-- Modelled from the spec: worker of topologicalOrder, repeatedly moving
a ready node from remaining to the emitted order; none models
CycleDetected, raised when no remaining node is ready. -/
def topoGo (g : SpecGraph) : Nat → List Nat → List Nat → Option (List Nat)
  | _, emitted, [] => some emitted
  | 0, _, _ => none
  | fuel + 1, emitted, remaining =>
    match readyFind g emitted remaining with
    | none => none
    | some n => topoGo g fuel (emitted ++ [n]) (remaining.erase n)

/-- Modelled from the spec: topologicalOrder of section 4.2 — a sequence
of ids, or none for CycleDetected when no valid order exists. -/
def topologicalOrder (g : SpecGraph) : Option (List Nat) :=
  topoGo g g.nodes.length [] g.nodes

/-- Outcome of the spec-modelled Submission Coordinator on a graph: the
fatal error if any, and the submit calls issued in order. -/
structure CoordResult where
  fatal : Option String
  submitted : List Nat
deriving DecidableEq, Repr

/-- Modelled from the spec: the Submission Coordinator of section 4.4,
missing from src — it computes the topological order first and rejects a
cyclic graph with CycleDetected before submitting anything; on an
acyclic graph it submits the nodes in that order. -/
def submissionCoordinator (g : SpecGraph) : CoordResult :=
  match topologicalOrder g with
  | none => ⟨some "CycleDetected", []⟩
  | some order => ⟨none, order⟩

/-- Modelled from the spec: the render contract of section 4.1, which the
code does not implement — rendering fails (none, for
UnresolvedPlaceholder) when the template references one of the known
dependency markers for which the bindings supply no value; otherwise all
bindings are substituted. -/
def renderSpec (markers : List String) (t : String) (bindings : List (String × String)) :
    Option String :=
  if markers.any (fun m => pyContainsStr t m && !(bindings.any (fun b => b.1 == m))) then none
  else some (bindings.foldl (fun acc b => renderTemplate acc b.1 b.2) t)

/-- Sample sbatch oracle: all three submissions are accepted with the
usual output format. -/
def subAllOk : Nat → CmdOutcome := fun i =>
  if i = 0 then .completed 0 "Submitted batch job 101" ""
  else if i = 1 then .completed 0 "Submitted batch job 102" ""
  else .completed 0 "Submitted batch job 103" ""

/-- Sample sbatch oracle: every submission is rejected. -/
def subFailFirst : Nat → CmdOutcome := fun _ =>
  .completed 1 "" "sbatch: error: invalid partition"

/-- Sample sbatch oracle: the first submission succeeds, later ones are
rejected. -/
def subFailSecond : Nat → CmdOutcome := fun i =>
  if i = 0 then .completed 0 "Submitted batch job 101" ""
  else .completed 1 "" "sbatch: error: invalid partition"

/-- Sample polling oracle: every job has left the queue and is accounted
FAILED, on every tick. -/
def obsAllFailed : Nat → String → PollObs := fun _ _ =>
  ⟨.completed 0 "" "", .completed 0 "FAILED" ""⟩

/-- Sample polling oracle: every job has left the queue and is accounted
COMPLETED, on every tick. -/
def obsAllDone : Nat → String → PollObs := fun _ _ =>
  ⟨.completed 0 "" "", .completed 0 "COMPLETED" ""⟩

/-- Sample polling oracle: jobs 101 and 102 are accounted COMPLETED on
every tick while job 103 stays listed in squeue forever. -/
def obsThirdStuck : Nat → String → PollObs := fun _ j =>
  if j = "103" then ⟨.completed 0 "103 batch R" "", .completed 0 "" ""⟩
  else ⟨.completed 0 "" "", .completed 0 "COMPLETED" ""⟩

/-- Sample polling oracle with a stale scheduler answer: on tick 0
job 101 is out of the queue and accounted COMPLETED, but from tick 1 on
squeue lists it again; job 102 stays in the queue throughout. -/
def obsRevert : Nat → String → PollObs := fun t j =>
  if j = "101" then
    if t = 0 then ⟨.completed 0 "" "", .completed 0 "COMPLETED" ""⟩
    else ⟨.completed 0 "101 batch R" "", .completed 0 "" ""⟩
  else ⟨.completed 0 "102 batch R" "", .completed 0 "" ""⟩

/-- Sample artifact filesystem: every expected artifact present with the
content the predicates require. -/
def fsAllGood : String → ReadResult := fun p =>
  if p = "/tmp/dep_test_data.txt" then .content "test_data_123"
  else if p = "/tmp/dep_test_processed.txt" then .content "processed_test_data_123"
  else if p = "/tmp/dep_test_final.txt" then .content "Final result: analysis_complete"
  else .missing

/-- Sample artifact filesystem: the first artifact exists but can not be
read; the others are fine. -/
def fsUnreadableData : String → ReadResult := fun p =>
  if p = "/tmp/dep_test_data.txt" then .unreadable
  else if p = "/tmp/dep_test_processed.txt" then .content "processed_test_data_123"
  else if p = "/tmp/dep_test_final.txt" then .content "Final result: analysis_complete"
  else .missing

/-- Sample artifact filesystem: the final artifact is missing, the rest
are fine. -/
def fsMissingFinal : String → ReadResult := fun p =>
  if p = "/tmp/dep_test_data.txt" then .content "test_data_123"
  else if p = "/tmp/dep_test_processed.txt" then .content "processed_test_data_123"
  else .missing

/-- Sample artifact filesystem: all artifacts exist but the processed
one carries unrelated content. -/
def fsBadProcessed : String → ReadResult := fun p =>
  if p = "/tmp/dep_test_data.txt" then .content "test_data_123"
  else if p = "/tmp/dep_test_processed.txt" then .content "unrelated"
  else if p = "/tmp/dep_test_final.txt" then .content "Final result: analysis_complete"
  else .missing

/-- Sample single observation: out of the queue, accounted FAILED. -/
def obsFailedOne : PollObs := ⟨.completed 0 "" "", .completed 0 "FAILED" ""⟩

/-- Sample single observation: out of the queue, accounted COMPLETED. -/
def obsDoneOne : PollObs := ⟨.completed 0 "" "", .completed 0 "COMPLETED" ""⟩

/-- Sample graph with a two node dependency cycle: node 0 depends on
node 1 and node 1 depends on node 0. -/
def cyclicGraphEx : SpecGraph :=
  ⟨[0, 1], fun n => if n = 0 then [1] else if n = 1 then [0] else []⟩

/-- Prefix of the job 2 template, for hostname testhost, up to the
dependency marker. -/
def job2Pre : String :=
  "#!/bin/bash\n#SBATCH --job-name=dep_test_2\n#SBATCH --output=/tmp/dep_test_2_%j.out\n" ++
  "#SBATCH --error=/tmp/dep_test_2_%j.err\n#SBATCH --dependency=afterok:"

/-- Suffix of the job 2 template, for hostname testhost, after the
dependency marker. -/
def job2Suf : String :=
  "\n\necho \"Job 2: Data processing started on testhost\"\ndate\necho \"Reading test data...\"\n" ++
  "if [ -f /tmp/dep_test_data.txt ]; then\n    data=$(cat /tmp/dep_test_data.txt)\n" ++
  "    echo \"Data read: $data\"\n    echo \"processed_$data\" > /tmp/dep_test_processed.txt\n" ++
  "    echo \"Job 2 completed successfully\"\nelse\n    echo \"ERROR: Test data not found!\"\n" ++
  "    exit 1\nfi\n"

/-- Absence of any occurrence of old inside l: no position of l starts a
copy of old. -/
def noOccur (old l : List Char) : Prop :=
  ∀ i, i < l.length → old.isPrefixOf (l.drop i) = false

/-- Order soundness of an emission sequence: every dependency of an
emitted node is itself emitted, at a strictly earlier position. -/
def goodOrd (g : SpecGraph) (l : List Nat) : Prop :=
  ∀ y ∈ l, ∀ d ∈ g.deps y, d ∈ l ∧ l.indexOf d < l.indexOf y

theorem splitTokensAux_nil (f : Nat) : splitTokensAux f [] = [] := by
  cases f <;> rfl

theorem splitTokensAux_congr :
    ∀ (f g : Nat) (l : List Char), l.length ≤ f → l.length ≤ g →
      splitTokensAux f l = splitTokensAux g l := by
  intro f
  induction f with
  | zero =>
    intro g l hf _
    have hnil : l = [] := List.eq_nil_of_length_eq_zero (Nat.le_zero.mp hf)
    subst hnil
    rw [splitTokensAux_nil, splitTokensAux_nil]
  | succ f ih =>
    intro g l hf hg
    cases l with
    | nil => rw [splitTokensAux_nil, splitTokensAux_nil]
    | cons c cs =>
      cases g with
      | zero => simp at hg
      | succ g =>
        simp only [splitTokensAux]
        cases hw : c.isWhitespace with
        | true =>
          simp only [if_true]
          exact ih g cs (Nat.le_of_succ_le_succ hf) (Nat.le_of_succ_le_succ hg)
        | false =>
          simp only [Bool.false_eq_true, if_false]
          congr 1
          have hlen : ((c :: cs).dropWhile (fun d => !d.isWhitespace)).length ≤ cs.length := by
            rw [List.dropWhile_cons_of_pos (by simp [hw])]
            exact (List.dropWhile_sublist _).length_le
          exact ih g _ (le_trans hlen (Nat.le_of_succ_le_succ hf))
            (le_trans hlen (Nat.le_of_succ_le_succ hg))

theorem splitTokens_ws {c : Char} (cs : List Char) (hw : c.isWhitespace = true) :
    splitTokens (c :: cs) = splitTokens cs := by
  show splitTokensAux (cs.length + 1) (c :: cs) = splitTokensAux cs.length cs
  simp only [splitTokensAux, hw, if_true]

theorem splitTokens_tok {c : Char} (cs : List Char) (hw : c.isWhitespace = false) :
    splitTokens (c :: cs) =
      ((c :: cs).takeWhile (fun d => !d.isWhitespace)) ::
        splitTokens ((c :: cs).dropWhile (fun d => !d.isWhitespace)) := by
  show splitTokensAux (cs.length + 1) (c :: cs) = _
  simp only [splitTokensAux, hw, Bool.false_eq_true, if_false]
  congr 1
  have hlen : ((c :: cs).dropWhile (fun d => !d.isWhitespace)).length ≤ cs.length := by
    rw [List.dropWhile_cons_of_pos (by simp [hw])]
    exact (List.dropWhile_sublist _).length_le
  exact splitTokensAux_congr _ _ _ hlen (Nat.le_refl _)

theorem head?_dropWhile_false (q : Char → Bool) :
    ∀ (l : List Char) (x : Char), (l.dropWhile q).head? = some x → q x = false := by
  intro l
  induction l with
  | nil => intro x h; simp [List.dropWhile] at h
  | cons a l ih =>
    intro x h
    cases hq : q a with
    | true =>
      rw [List.dropWhile_cons_of_pos hq] at h
      exact ih x h
    | false =>
      rw [List.dropWhile_cons_of_neg (by simp [hq])] at h
      simp only [List.head?_cons, Option.some.injEq] at h
      rw [← h]
      exact hq

theorem splitTokens_getLast_char :
    ∀ (n : Nat) (l : List Char), l.length ≤ n →
      (∀ t, (splitTokens l).getLast? = some t →
        t ≠ [] ∧ (∀ c ∈ t, c.isWhitespace = false) ∧
        ∃ pre trail, l = pre ++ t ++ trail ∧ (∀ c ∈ trail, c.isWhitespace = true) ∧
          (pre = [] ∨ ∃ d, pre.getLast? = some d ∧ d.isWhitespace = true)) ∧
      ((splitTokens l).getLast? = none ↔ ∀ c ∈ l, c.isWhitespace = true) := by
  intro n
  induction n with
  | zero =>
    intro l hl
    have hnil : l = [] := List.eq_nil_of_length_eq_zero (Nat.le_zero.mp hl)
    subst hnil
    constructor
    · intro t ht; simp [splitTokens, splitTokensAux] at ht
    · simp [splitTokens, splitTokensAux]
  | succ n ih =>
    intro l hl
    cases l with
    | nil =>
      constructor
      · intro t ht; simp [splitTokens, splitTokensAux] at ht
      · simp [splitTokens, splitTokensAux]
    | cons c cs =>
      have hcs : cs.length ≤ n := Nat.le_of_succ_le_succ hl
      cases hw : c.isWhitespace with
      | true =>
        have hrw := splitTokens_ws cs hw
        constructor
        · intro t ht
          rw [hrw] at ht
          obtain ⟨hne, hnw, pre, trail, heq, htrail, hpre⟩ := (ih cs hcs).1 t ht
          refine ⟨hne, hnw, c :: pre, trail, by rw [heq]; rfl, htrail, Or.inr ?_⟩
          rcases hpre with hpe | ⟨d, hd, hdw⟩
          · subst hpe; exact ⟨c, rfl, hw⟩
          · refine ⟨d, ?_, hdw⟩
            cases pre with
            | nil => simp at hd
            | cons q qs => rw [List.getLast?_cons_cons]; exact hd
        · rw [hrw, (ih cs hcs).2]
          constructor
          · intro h x hx
            rcases List.mem_cons.mp hx with h1 | h2
            · subst h1; exact hw
            · exact h x h2
          · intro h x hx; exact h x (List.mem_cons_of_mem _ hx)
      | false =>
        have hrw := splitTokens_tok cs hw
        have hdl : ((c :: cs).dropWhile (fun d => !d.isWhitespace)).length ≤ n := by
          rw [List.dropWhile_cons_of_pos (by simp [hw])]
          exact le_trans (List.dropWhile_sublist _).length_le hcs
        constructor
        · intro t ht
          rw [hrw] at ht
          cases hrest : splitTokens ((c :: cs).dropWhile (fun d => !d.isWhitespace)) with
          | nil =>
            rw [hrest] at ht
            simp only [List.getLast?_singleton, Option.some.injEq] at ht
            have htws : ∀ x ∈ (c :: cs).dropWhile (fun d => !d.isWhitespace),
                x.isWhitespace = true := by
              apply (ih _ hdl).2.mp
              rw [hrest]; rfl
            refine ⟨?_, ?_, [], (c :: cs).dropWhile (fun d => !d.isWhitespace), ?_, htws,
              Or.inl rfl⟩
            · rw [← ht, List.takeWhile_cons_of_pos (by simp [hw])]; simp
            · intro x hx
              rw [← ht] at hx
              have := List.mem_takeWhile_imp hx
              simpa using this
            · rw [List.nil_append, ← ht, List.takeWhile_append_dropWhile]
          | cons r rs =>
            rw [hrest, List.getLast?_cons_cons] at ht
            have ht2 : (splitTokens ((c :: cs).dropWhile (fun d => !d.isWhitespace))).getLast? =
                some t := by rw [hrest]; exact ht
            obtain ⟨hne, hnw, pre2, trail, heq, htrail, hpre2⟩ := (ih _ hdl).1 t ht2
            refine ⟨hne, hnw, (c :: cs).takeWhile (fun d => !d.isWhitespace) ++ pre2, trail,
              ?_, htrail, Or.inr ?_⟩
            · conv_lhs => rw [← List.takeWhile_append_dropWhile (fun d => !d.isWhitespace) (c :: cs)]
              rw [heq]
              simp [List.append_assoc]
            · rcases hpre2 with hpe | ⟨d2, hd2, hd2w⟩
              · exfalso
                subst hpe
                rw [List.nil_append] at heq
                cases t with
                | nil => exact hne rfl
                | cons t0 ts =>
                  have hh : ((c :: cs).dropWhile (fun d => !d.isWhitespace)).head? = some t0 := by
                    rw [heq]; rfl
                  have hq := head?_dropWhile_false _ _ _ hh
                  have h2 := hnw t0 (by simp)
                  simp [h2] at hq
              · refine ⟨d2, ?_, hd2w⟩
                cases pre2 with
                | nil => simp at hd2
                | cons q qs => rw [List.getLast?_append_cons]; exact hd2
        · rw [hrw]
          constructor
          · intro h
            exfalso
            cases hrest : splitTokens ((c :: cs).dropWhile (fun d => !d.isWhitespace)) with
            | nil => rw [hrest] at h; simp at h
            | cons r rs =>
              rw [hrest, List.getLast?_cons_cons, List.getLast?_eq_none_iff] at h
              simp at h
          · intro h
            exfalso
            have := h c (by simp)
            rw [hw] at this
            exact Bool.false_ne_true this

/-- C5: the job-id extraction used after every sbatch call is one rule
applied to the whole output string: it either returns the trailing
identifier token — the last whitespace-separated token, nonempty and
whitespace-free, preceded by nothing or by whitespace and followed only
by whitespace — or fails (the IndexError case, modelled as none), and it
fails exactly when the output holds no token at all. -/
theorem c5_trailing_token (s : String) :
    (∀ t, extractJobId s = some t →
       t.data ≠ [] ∧ (∀ c ∈ t.data, c.isWhitespace = false) ∧
       ∃ pre trail, s.data = pre ++ t.data ++ trail ∧ (∀ c ∈ trail, c.isWhitespace = true) ∧
         (pre = [] ∨ ∃ d, pre.getLast? = some d ∧ d.isWhitespace = true)) ∧
    (extractJobId s = none ↔ ∀ c ∈ s.data, c.isWhitespace = true) := by
  have hmain := splitTokens_getLast_char s.data.length s.data (Nat.le_refl _)
  constructor
  · intro t ht
    unfold extractJobId at ht
    rw [Option.map_eq_some'] at ht
    obtain ⟨a, ha, hat⟩ := ht
    have hdat : t.data = a := by rw [← hat]; rfl
    rw [hdat]
    exact hmain.1 a ha
  · unfold extractJobId
    rw [Option.map_eq_none']
    exact hmain.2

/-- Witness for C5 on the canonical sbatch output. -/
theorem c5_trailing_token_witness :
    "12345".data ≠ [] ∧ (∀ c ∈ "12345".data, c.isWhitespace = false) ∧
      ∃ pre trail, "Submitted batch job 12345".data = pre ++ "12345".data ++ trail ∧
        (∀ c ∈ trail, c.isWhitespace = true) ∧
        (pre = [] ∨ ∃ d, pre.getLast? = some d ∧ d.isWhitespace = true) :=
  (c5_trailing_token "Submitted batch job 12345").1 "12345" rfl

theorem pyReplaceAux_nil (f : Nat) (old new : List Char) : pyReplaceAux f [] old new = [] := by
  cases f <;> rfl

theorem pyReplaceAux_congr :
    ∀ (f g : Nat) (l old new : List Char), l.length ≤ f → l.length ≤ g →
      pyReplaceAux f l old new = pyReplaceAux g l old new := by
  intro f
  induction f with
  | zero =>
    intro g l old new hf _
    have hnil : l = [] := List.eq_nil_of_length_eq_zero (Nat.le_zero.mp hf)
    subst hnil
    rw [pyReplaceAux_nil, pyReplaceAux_nil]
  | succ f ih =>
    intro g l old new hf hg
    cases l with
    | nil => rw [pyReplaceAux_nil, pyReplaceAux_nil]
    | cons c cs =>
      cases g with
      | zero => simp at hg
      | succ g =>
        have hf2 : cs.length ≤ f := by simpa using hf
        have hg2 : cs.length ≤ g := by simpa using hg
        simp only [pyReplaceAux]
        by_cases hcond : old ≠ [] ∧ old.isPrefixOf (c :: cs) = true
        · rw [if_pos hcond, if_pos hcond]
          have hol : 1 ≤ old.length := by
            cases old with
            | nil => exact absurd rfl hcond.1
            | cons o os => simp
          have hdlen : (List.drop old.length (c :: cs)).length ≤ cs.length := by
            rw [List.length_drop, List.length_cons]
            omega
          congr 1
          exact ih g _ old new (le_trans hdlen hf2) (le_trans hdlen hg2)
        · rw [if_neg hcond, if_neg hcond]
          congr 1
          exact ih g cs old new hf2 hg2

theorem pyReplace_cons_pos (c : Char) (cs old new : List Char) (h1 : old ≠ [])
    (h2 : old.isPrefixOf (c :: cs) = true) :
    pyReplace (c :: cs) old new = new ++ pyReplace ((c :: cs).drop old.length) old new := by
  show pyReplaceAux ((c :: cs).length) (c :: cs) old new = _
  have hol : 1 ≤ old.length := by
    cases old with
    | nil => exact absurd rfl h1
    | cons o os => simp
  simp only [List.length_cons, pyReplaceAux, if_pos (And.intro h1 h2)]
  congr 1
  apply pyReplaceAux_congr
  · rw [List.length_drop, List.length_cons]; omega
  · exact Nat.le_refl _

theorem pyReplace_cons_neg (c : Char) (cs old new : List Char)
    (h : ¬(old ≠ [] ∧ old.isPrefixOf (c :: cs) = true)) :
    pyReplace (c :: cs) old new = c :: pyReplace cs old new := by
  show pyReplaceAux ((c :: cs).length) (c :: cs) old new = _
  simp only [List.length_cons, pyReplaceAux, if_neg h]
  rfl

theorem pyReplace_of_noOccur (old new : List Char) :
    ∀ l, noOccur old l → pyReplace l old new = l := by
  intro l
  induction l with
  | nil => intro _; rfl
  | cons c cs ih =>
    intro h
    have h0 : old.isPrefixOf (c :: cs) = false := by
      have := h 0 (by simp)
      simpa using this
    rw [pyReplace_cons_neg c cs old new (by simp [h0])]
    congr 1
    apply ih
    intro i hi
    have := h (i + 1) (by simpa using Nat.succ_lt_succ hi)
    simpa using this

theorem isPrefixOf_self_append : ∀ (l m : List Char), l.isPrefixOf (l ++ m) = true := by
  intro l m
  induction l with
  | nil => simp [List.isPrefixOf]
  | cons c cs ih => simp [List.isPrefixOf, ih]

theorem pyReplace_single (old new : List Char) (h1 : old ≠ []) :
    ∀ (a b : List Char),
      (∀ i, i < a.length → old.isPrefixOf ((a ++ old ++ b).drop i) = false) →
      pyReplace (a ++ old ++ b) old new = a ++ new ++ pyReplace b old new := by
  intro a
  induction a with
  | nil =>
    intro b _
    simp only [List.nil_append]
    obtain ⟨o, os, hold⟩ := List.exists_cons_of_ne_nil h1
    have hpre : old.isPrefixOf (old ++ b) = true := isPrefixOf_self_append old b
    have hsplit : old ++ b = o :: (os ++ b) := by rw [hold]; rfl
    have hpre2 : old.isPrefixOf (o :: (os ++ b)) = true := by rw [← hsplit]; exact hpre
    rw [hsplit, pyReplace_cons_pos o (os ++ b) old new h1 hpre2, ← hsplit, List.drop_left]
  | cons c a2 ih =>
    intro b hocc
    have h0 : old.isPrefixOf (c :: (a2 ++ old ++ b)) = false := by
      have h2 := hocc 0 (by simp)
      simpa using h2
    have heq : (c :: a2) ++ old ++ b = c :: (a2 ++ old ++ b) := by simp
    have hrec : pyReplace (a2 ++ old ++ b) old new = a2 ++ new ++ pyReplace b old new := by
      apply ih
      intro i hi
      have h2 := hocc (i + 1) (by simpa using Nat.succ_lt_succ hi)
      simpa using h2
    rw [heq, pyReplace_cons_neg c _ old new ?_, hrec]
    · simp
    · intro hc
      rw [h0] at hc
      exact Bool.false_ne_true hc.2

set_option maxRecDepth 10000 in
theorem job2Template_split : job2Template "testhost" = job2Pre ++ "$JOB1_ID" ++ job2Suf := rfl

set_option maxRecDepth 100000 in
/-- C6 as the code has it: rendering is plain str.replace — total,
deterministic and side-effect-free.  When the binding is supplied the
dependency marker is substituted verbatim (first conjunct, for the whole
job 2 template and an arbitrary bound id).  A referenced marker with no
supplied binding never raises UnresolvedPlaceholder: rendering succeeds
and leaves the marker in place verbatim (second conjunct). -/
theorem c6_render_amended (v : String) :
    renderTemplate (job2Template "testhost") "$JOB1_ID" v = job2Pre ++ v ++ job2Suf ∧
    renderTemplate "echo $JOB1_ID" "$JOB2_ID" v = "echo $JOB1_ID" := by
  constructor
  · have hocc : ∀ i, i < job2Pre.data.length →
        ("$JOB1_ID".data).isPrefixOf
          ((job2Pre.data ++ "$JOB1_ID".data ++ job2Suf.data).drop i) = false := by decide
    have hnocc : noOccur "$JOB1_ID".data job2Suf.data := by unfold noOccur; decide
    have hmain := pyReplace_single "$JOB1_ID".data v.data (by decide)
      job2Pre.data job2Suf.data hocc
    rw [pyReplace_of_noOccur _ _ job2Suf.data hnocc] at hmain
    unfold renderTemplate
    rw [job2Template_split]
    have hd : (job2Pre ++ "$JOB1_ID" ++ job2Suf).data =
        job2Pre.data ++ "$JOB1_ID".data ++ job2Suf.data := by
      rw [String.data_append, String.data_append]
    rw [hd, hmain]
    have hd2 : (job2Pre ++ v ++ job2Suf).data = job2Pre.data ++ v.data ++ job2Suf.data := by
      rw [String.data_append, String.data_append]
    rw [← hd2]
    rfl
  · unfold renderTemplate
    rw [pyReplace_of_noOccur "$JOB2_ID".data v.data "echo $JOB1_ID".data
      (by unfold noOccur; decide)]
    rfl

/-- Counterexample for C6 as claimed: the template references the
placeholder marker of job 1, the bindings supply only the job 2 marker;
the contract of the spec demands failure with UnresolvedPlaceholder
(renderSpec returns none), but the rendering the code performs succeeds
and returns the template with the unresolved marker left in place. -/
theorem c6_counterexample :
    renderSpec ["$JOB1_ID", "$JOB2_ID"] "echo $JOB1_ID" [("$JOB2_ID", "42")] = none ∧
    renderTemplate "echo $JOB1_ID" "$JOB2_ID" "42" = "echo $JOB1_ID" :=
  ⟨rfl, rfl⟩

theorem foldl_tickStep (obs : Nat → String → PollObs) (t : Nat) :
    ∀ (ids : List String) (st : TickState),
      ids.foldl (tickStep obs t) st =
        ⟨st.completedJobs ++ ids.filter (fun j => decide (classifyObs (obs t j) = .completedCls)),
         st.failedJobs ++ ids.filter (fun j => decide (classifyObs (obs t j) = .failedCls)),
         st.allCompleted && ids.all (fun j =>
           decide (classifyObs (obs t j) = .completedCls ∨
             classifyObs (obs t j) = .failedCls))⟩ := by
  intro ids
  induction ids with
  | nil =>
    intro st
    cases st
    simp
  | cons j ids ih =>
    intro st
    rw [List.foldl_cons, ih]
    cases hc : classifyObs (obs t j) with
    | inQueue => simp [tickStep, hc, List.filter_cons, List.all_cons]
    | completedCls => simp [tickStep, hc, List.filter_cons, List.all_cons]
    | failedCls => simp [tickStep, hc, List.filter_cons, List.all_cons]
    | indeterminate => simp [tickStep, hc, List.filter_cons, List.all_cons]

theorem classifyTick_eq (obs : Nat → String → PollObs) (ids : List String) (t : Nat) :
    classifyTick obs ids t =
      ⟨ids.filter (fun j => decide (classifyObs (obs t j) = .completedCls)),
       ids.filter (fun j => decide (classifyObs (obs t j) = .failedCls)),
       ids.all (fun j => decide (classifyObs (obs t j) = .completedCls ∨
         classifyObs (obs t j) = .failedCls))⟩ := by
  unfold classifyTick
  rw [foldl_tickStep]
  simp

theorem waitGo_eq (obs : Nat → String → PollObs) (ids : List String) :
    ∀ (fuel t : Nat),
      waitGo obs ids fuel t =
        ((classifyTick obs ids (finalTickGo obs ids fuel t)).completedJobs,
         (classifyTick obs ids (finalTickGo obs ids fuel t)).failedJobs) := by
  intro fuel
  induction fuel with
  | zero => intro t; rfl
  | succ fuel ih =>
    intro t
    by_cases h : (classifyTick obs ids t).allCompleted = true
    · simp only [waitGo, finalTickGo, h, if_true]
    · simp only [waitGo, finalTickGo, h, if_false]
      exact ih (t + 1)

theorem waitGo_const (obs : Nat → String → PollObs) (ids : List String)
    (c f : List String) (h : ∀ t, classifyTick obs ids t = ⟨c, f, false⟩) :
    ∀ fuel t, waitGo obs ids fuel t = (c, f) := by
  intro fuel
  induction fuel with
  | zero => intro t; simp [waitGo, h t]
  | succ fuel ih =>
    intro t
    simp only [waitGo, h t]
    simpa using ih (t + 1)

/-- C4 as the code has it: wait_for_jobs rebuilds the completed and
failed lists from scratch on every tick, re-querying every job id each
time; the returned classification is exactly the classification the
final executed tick gives — nothing observed on an earlier tick is
recorded, no job is removed from the poll set, and a terminal
observation is kept only if the final tick reproduces it. -/
theorem c4_final_tick_only (obs : Nat → String → PollObs) (ids : List String) (T : Nat) :
    waitForJobs obs ids T =
      (ids.filter (fun j => decide (classifyObs (obs (finalTick obs ids T) j) = .completedCls)),
       ids.filter (fun j => decide (classifyObs (obs (finalTick obs ids T) j) = .failedCls))) := by
  unfold waitForJobs finalTick
  rw [waitGo_eq, classifyTick_eq]

/-- Counterexample for C4 as claimed: job 101 is observed terminal
(accounted COMPLETED) on tick 0, yet wait_for_jobs queries it again on
tick 1 — where a stale squeue answer lists it as queued — and the final
result records job 101 in neither the completed nor the failed list:
the recorded terminal status was reverted by a later observation. -/
theorem c4_counterexample :
    classifyObs (obsRevert 0 "101") = .completedCls ∧
    classifyObs (obsRevert 1 "101") = .inQueue ∧
    waitForJobs obsRevert ["101", "102"] 2 = ([], []) :=
  ⟨rfl, rfl, rfl⟩

/-- C3 amended: when the wall-clock deadline (T allowed ticks) elapses
while job id3 is still listed by squeue on every tick and jobs id1 and
id2 stay accounted COMPLETED, the polling loop exits; id1 and id2 remain
in the completed list, but the still-running id3 receives no terminal
classification at all — it is absent from both lists, the code has no
TimedOut status — and main exits with code 1 (run failed). -/
theorem c3_deadline_amended (sub : Nat → CmdOutcome) (hostname : String)
    (obs : Nat → String → PollObs) (T : Nat) (fs : String → ReadResult)
    (id1 id2 id3 : String)
    (h1 : (runCommand (sub 0)).1 = true) (hx1 : extractJobId (runCommand (sub 0)).2.1 = some id1)
    (h2 : (runCommand (sub 1)).1 = true) (hx2 : extractJobId (runCommand (sub 1)).2.1 = some id2)
    (h3 : (runCommand (sub 2)).1 = true) (hx3 : extractJobId (runCommand (sub 2)).2.1 = some id3)
    (hne1 : id1 ≠ "") (hne2 : id2 ≠ "") (hne3 : id3 ≠ "")
    (hc1 : ∀ t, classifyObs (obs t id1) = .completedCls)
    (hc2 : ∀ t, classifyObs (obs t id2) = .completedCls)
    (hc3 : ∀ t, classifyObs (obs t id3) = .inQueue)
    (hd1 : id3 ≠ id1) (hd2 : id3 ≠ id2) :
    waitForJobs obs [id1, id2, id3] T = ([id1, id2], []) ∧
    id3 ∉ (waitForJobs obs [id1, id2, id3] T).1 ∧
    id3 ∉ (waitForJobs obs [id1, id2, id3] T).2 ∧
    (mainRun sub hostname obs T fs).1 = .ok 1 := by
  have htick : ∀ t, classifyTick obs [id1, id2, id3] t = ⟨[id1, id2], [], false⟩ := by
    intro t
    rw [classifyTick_eq]
    simp [hc1 t, hc2 t, hc3 t, List.filter_cons, List.all_cons]
  have hwait : waitForJobs obs [id1, id2, id3] T = ([id1, id2], []) :=
    waitGo_const obs [id1, id2, id3] [id1, id2] [] htick (T - 1) 0
  have hsub : submitDependentJobs sub hostname =
      ⟨.ok (some id1, some id2, some id3), 3,
       some (renderTemplate (job2Template hostname) "$JOB1_ID" id1),
       some (renderTemplate (job3Template hostname) "$JOB2_ID" id2)⟩ := by
    simp only [submitDependentJobs, h1, hx1, h2, hx2, h3, hx3]
    simp
  refine ⟨hwait, ?_, ?_, ?_⟩
  · rw [hwait]
    simp [hd1, hd2]
  · rw [hwait]
    simp
  · unfold mainRun
    rw [hsub]
    simp [hne1, hne2, hne3, hwait]

/-- Witness for C3 amended: the deadline elapses with job 103 still
queued; it ends in neither list and the run fails. -/
theorem c3_deadline_witness :
    waitForJobs obsThirdStuck ["101", "102", "103"] 2 = (["101", "102"], []) ∧
    "103" ∉ (waitForJobs obsThirdStuck ["101", "102", "103"] 2).1 ∧
    "103" ∉ (waitForJobs obsThirdStuck ["101", "102", "103"] 2).2 ∧
    (mainRun subAllOk "h" obsThirdStuck 2 fsAllGood).1 = .ok 1 :=
  c3_deadline_amended subAllOk "h" obsThirdStuck 2 fsAllGood "101" "102" "103"
    rfl rfl rfl rfl rfl rfl (by decide) (by decide) (by decide)
    (fun _ => rfl) (fun _ => rfl) (fun _ => rfl) (by decide) (by decide)

/-- Counterexample for C3 as claimed: under the same deadline scenario
the still-running job 103 is given no final status whatsoever — in
particular no TimedOut status exists in the code, the job is simply
absent from both the completed and the failed list. -/
theorem c3_counterexample :
    waitForJobs obsThirdStuck ["101", "102", "103"] 2 = (["101", "102"], []) ∧
    "103" ∉ (waitForJobs obsThirdStuck ["101", "102", "103"] 2).1 ∧
    "103" ∉ (waitForJobs obsThirdStuck ["101", "102", "103"] 2).2 := by
  refine ⟨rfl, ?_, ?_⟩ <;> decide

/-- C7: a job the queue query no longer lists is classified only after
the secondary sacct accounting check.  A job ends in the failed list
only when some tick classified it failed; a failed classification
requires empty squeue output, a successful non-empty sacct answer whose
first line holds FAILED or CANCELLED and does not hold COMPLETED; and
whenever the first line of a successful non-empty sacct answer holds
COMPLETED, the job is classified succeeded. -/
theorem c7_secondary_check (obs : Nat → String → PollObs) (ids : List String) (T : Nat)
    (j : String) (o : PollObs) :
    (j ∈ (waitForJobs obs ids T).2 →
       classifyObs (obs (finalTick obs ids T) j) = .failedCls) ∧
    (classifyObs o = .failedCls →
       pyStrip (runCommand o.squeue).2.1 = "" ∧
       (runCommand o.sacct).1 = true ∧
       pyStrip (runCommand o.sacct).2.1 ≠ "" ∧
       (pyContainsStr (firstLine (pyStrip (runCommand o.sacct).2.1)) "FAILED" = true ∨
        pyContainsStr (firstLine (pyStrip (runCommand o.sacct).2.1)) "CANCELLED" = true) ∧
       pyContainsStr (firstLine (pyStrip (runCommand o.sacct).2.1)) "COMPLETED" = false) ∧
    (pyStrip (runCommand o.squeue).2.1 = "" →
       (runCommand o.sacct).1 = true →
       pyStrip (runCommand o.sacct).2.1 ≠ "" →
       pyContainsStr (firstLine (pyStrip (runCommand o.sacct).2.1)) "COMPLETED" = true →
       classifyObs o = .completedCls) := by
  refine ⟨?_, ?_, ?_⟩
  · intro hj
    unfold waitForJobs at hj
    rw [waitGo_eq, classifyTick_eq] at hj
    have hmem := (List.mem_filter.mp hj).2
    unfold finalTick
    exact of_decide_eq_true hmem
  · intro hf
    unfold classifyObs at hf
    by_cases hq : pyStrip (runCommand o.squeue).2.1 = ""
    · rw [if_neg (not_not_intro hq)] at hf
      by_cases ha : (runCommand o.sacct).1 = true ∧ pyStrip (runCommand o.sacct).2.1 ≠ ""
      · rw [if_pos ha] at hf
        by_cases hcp : pyContainsStr (firstLine (pyStrip (runCommand o.sacct).2.1))
            "COMPLETED" = true
        · rw [if_pos hcp] at hf
          exact absurd hf (by simp)
        · rw [if_neg hcp] at hf
          by_cases hfc : pyContainsStr (firstLine (pyStrip (runCommand o.sacct).2.1))
              "FAILED" = true ∨
              pyContainsStr (firstLine (pyStrip (runCommand o.sacct).2.1)) "CANCELLED" = true
          · exact ⟨hq, ha.1, ha.2, hfc, by simpa using hcp⟩
          · rw [if_neg hfc] at hf
            exact absurd hf (by simp)
      · rw [if_neg ha] at hf
        exact absurd hf (by simp)
    · rw [if_pos hq] at hf
      exact absurd hf (by simp)
  · intro hq ha1 ha2 hcp
    unfold classifyObs
    rw [if_neg (not_not_intro hq), if_pos (And.intro ha1 ha2), if_pos hcp]

/-- Witness for C7 at concrete observations. -/
theorem c7_secondary_check_witness :
    classifyObs (obsAllFailed (finalTick obsAllFailed ["101"] 1) "101") = .failedCls ∧
    (pyStrip (runCommand obsFailedOne.squeue).2.1 = "" ∧
     (runCommand obsFailedOne.sacct).1 = true ∧
     pyStrip (runCommand obsFailedOne.sacct).2.1 ≠ "" ∧
     (pyContainsStr (firstLine (pyStrip (runCommand obsFailedOne.sacct).2.1)) "FAILED" = true ∨
      pyContainsStr (firstLine (pyStrip (runCommand obsFailedOne.sacct).2.1)) "CANCELLED" = true) ∧
     pyContainsStr (firstLine (pyStrip (runCommand obsFailedOne.sacct).2.1)) "COMPLETED" = false) ∧
    classifyObs obsDoneOne = .completedCls :=
  ⟨(c7_secondary_check obsAllFailed ["101"] 1 "101" obsFailedOne).1 (by decide),
   (c7_secondary_check obsAllFailed ["101"] 1 "101" obsFailedOne).2.1 rfl,
   (c7_secondary_check obsAllFailed ["101"] 1 "101" obsDoneOne).2.2 rfl rfl (by decide) rfl⟩

/-- C1 amended: the script never waits for, or even queries, any
dependency status before submitting — every sbatch call happens before
any squeue or sacct call of the run.  What it does guarantee is weaker:
job 2 is submitted only after the submission of job 1 succeeded and its
external id was parsed, and the body submitted for job 2 is the job 2
template with the dependency marker replaced by that id — ordering is
delegated to the scheduler via the afterok directive in that body. -/
theorem c1_submission_order_amended (sub : Nat → CmdOutcome) (hostname : String)
    (h : 2 ≤ (submitDependentJobs sub hostname).calls) :
    (runCommand (sub 0)).1 = true ∧
    ∃ id1, extractJobId (runCommand (sub 0)).2.1 = some id1 ∧
      (submitDependentJobs sub hostname).job2Rendered =
        some (renderTemplate (job2Template hostname) "$JOB1_ID" id1) := by
  by_cases hb : (runCommand (sub 0)).1 = false
  · exfalso
    have hone : (submitDependentJobs sub hostname).calls = 1 := by
      simp [submitDependentJobs, hb]
    omega
  · have hb2 : (runCommand (sub 0)).1 = true := by
      cases hv : (runCommand (sub 0)).1 with
      | true => rfl
      | false => exact absurd hv hb
    cases hx : extractJobId (runCommand (sub 0)).2.1 with
    | none =>
      exfalso
      have hone : (submitDependentJobs sub hostname).calls = 1 := by
        simp [submitDependentJobs, hb2, hx]
      omega
    | some id1 =>
      have hval : (submitDependentJobs sub hostname).job2Rendered =
          some (renderTemplate (job2Template hostname) "$JOB1_ID" id1) := by
        by_cases h2 : (runCommand (sub 1)).1 = false
        · simp [submitDependentJobs, hb2, hx, h2]
        · cases hx2 : extractJobId (runCommand (sub 1)).2.1 with
          | none => simp [submitDependentJobs, hb2, hx, h2, hx2]
          | some id2 =>
            by_cases h3 : (runCommand (sub 2)).1 = false
            · simp [submitDependentJobs, hb2, hx, h2, hx2, h3]
            · cases hx3 : extractJobId (runCommand (sub 2)).2.1 with
              | none => simp [submitDependentJobs, hb2, hx, h2, hx2, h3, hx3]
              | some id3 => simp [submitDependentJobs, hb2, hx, h2, hx2, h3, hx3]
      exact ⟨hb2, id1, rfl, hval⟩

set_option maxRecDepth 10000 in
/-- Witness for C1 amended on a run whose submissions all succeed. -/
theorem c1_submission_order_witness :
    (runCommand (subAllOk 0)).1 = true ∧
    ∃ id1, extractJobId (runCommand (subAllOk 0)).2.1 = some id1 ∧
      (submitDependentJobs subAllOk "testhost").job2Rendered =
        some (renderTemplate (job2Template "testhost") "$JOB1_ID" id1) :=
  c1_submission_order_amended subAllOk "testhost" (by decide)

/-- Counterexample for C1 as claimed: in this run every job is accounted
FAILED on every polling tick — job 101 is never observed Succeeded at
any point of the run — yet the script has already issued all three
sbatch calls, jobs 102 and 103 included, before the first status query:
submission does not wait for any dependency to reach Succeeded. -/
theorem c1_counterexample :
    (submitDependentJobs subAllOk "h").calls = 3 ∧
    (submitDependentJobs subAllOk "h").result = .ok (some "101", some "102", some "103") ∧
    classifyObs (obsAllFailed 0 "101") = .failedCls ∧
    (mainRun subAllOk "h" obsAllFailed 2 fsAllGood).1 = .ok 1 :=
  ⟨rfl, rfl, rfl, rfl⟩

/-- C2: a rejected submission aborts the chain.  If the sbatch call for
job 1 fails, the function returns (None, None, None) after exactly one
sbatch call — jobs 2 and 3 are never submitted — and main exits 1.  If
job 1 succeeded with parsed id and the sbatch call for job 2 fails, the
function returns that id with (None, None) after exactly two sbatch
calls — job 3 is never submitted, the id of job 1 is still reported —
and main exits 1. -/
theorem c2_chain_abort (sub : Nat → CmdOutcome) (hostname : String)
    (obs : Nat → String → PollObs) (T : Nat) (fs : String → ReadResult) :
    ((runCommand (sub 0)).1 = false →
       submitDependentJobs sub hostname = ⟨.ok (none, none, none), 1, none, none⟩ ∧
       (mainRun sub hostname obs T fs).1 = .ok 1) ∧
    (∀ id1, (runCommand (sub 0)).1 = true →
       extractJobId (runCommand (sub 0)).2.1 = some id1 →
       (runCommand (sub 1)).1 = false →
       submitDependentJobs sub hostname =
         ⟨.ok (some id1, none, none), 2,
          some (renderTemplate (job2Template hostname) "$JOB1_ID" id1), none⟩ ∧
       (mainRun sub hostname obs T fs).1 = .ok 1) := by
  constructor
  · intro hb
    have hsub : submitDependentJobs sub hostname = ⟨.ok (none, none, none), 1, none, none⟩ := by
      simp [submitDependentJobs, hb]
    refine ⟨hsub, ?_⟩
    unfold mainRun
    rw [hsub]
  · intro id1 hb hx h2
    have hsub : submitDependentJobs sub hostname =
        ⟨.ok (some id1, none, none), 2,
         some (renderTemplate (job2Template hostname) "$JOB1_ID" id1), none⟩ := by
      simp [submitDependentJobs, hb, hx, h2]
    refine ⟨hsub, ?_⟩
    unfold mainRun
    rw [hsub]

/-- Witness for C2: a run whose first submission is rejected, and a run
whose second submission is rejected. -/
theorem c2_chain_abort_witness :
    (submitDependentJobs subFailFirst "testhost" = ⟨.ok (none, none, none), 1, none, none⟩ ∧
     (mainRun subFailFirst "testhost" obsAllDone 2 fsAllGood).1 = .ok 1) ∧
    (submitDependentJobs subFailSecond "testhost" =
       ⟨.ok (some "101", none, none), 2,
        some (renderTemplate (job2Template "testhost") "$JOB1_ID" "101"), none⟩ ∧
     (mainRun subFailSecond "testhost" obsAllDone 2 fsAllGood).1 = .ok 1) :=
  ⟨(c2_chain_abort subFailFirst "testhost" obsAllDone 2 fsAllGood).1 rfl,
   (c2_chain_abort subFailSecond "testhost" obsAllDone 2 fsAllGood).2 "101" rfl rfl rfl⟩

/-- C8 amended: a missing expected artifact, or contents failing their
required-substring predicates, make verify_results return False and
main exit nonzero (main returns 0 only when verification succeeded);
verification reads the filesystem only, so the completed and failed
status lists main prints are identical whatever the artifacts hold.
(An artifact that exists but can not be read is different: see the
counterexample — the first phase reads outside the try block, so the
exception propagates instead of a False return.) -/
theorem c8_verification_amended (sub : Nat → CmdOutcome) (hostname : String)
    (obs : Nat → String → PollObs) (T : Nat) (fs fs2 : String → ReadResult) :
    ((∃ p ∈ expectedFiles, fs p = .missing) →
       (∀ p ∈ expectedFiles, fs p ≠ .unreadable) →
       verifyResults fs = .ok false) ∧
    (∀ s1 s2 s3, fs "/tmp/dep_test_data.txt" = .content s1 →
       fs "/tmp/dep_test_processed.txt" = .content s2 →
       fs "/tmp/dep_test_final.txt" = .content s3 →
       (pyContainsStr s1 "test_data_123" = false ∨
        pyContainsStr s2 "processed_test_data_123" = false ∨
        pyContainsStr s3 "analysis_complete" = false) →
       verifyResults fs = .ok false) ∧
    ((mainRun sub hostname obs T fs).2 = (mainRun sub hostname obs T fs2).2) ∧
    ((mainRun sub hostname obs T fs).1 = .ok 0 → verifyResults fs = .ok true) := by
  refine ⟨?_, ?_, ?_, ?_⟩
  · rintro ⟨p, hp, hmiss⟩ hnur
    have hone : fs "/tmp/dep_test_data.txt" = .missing ∨
        fs "/tmp/dep_test_processed.txt" = .missing ∨
        fs "/tmp/dep_test_final.txt" = .missing := by
      simp only [expectedFiles, List.mem_cons, List.not_mem_nil, or_false] at hp
      rcases hp with h | h | h
      · exact Or.inl (h ▸ hmiss)
      · exact Or.inr (Or.inl (h ▸ hmiss))
      · exact Or.inr (Or.inr (h ▸ hmiss))
    have hn1 : fs "/tmp/dep_test_data.txt" ≠ .unreadable :=
      hnur _ (by simp [expectedFiles])
    have hn2 : fs "/tmp/dep_test_processed.txt" ≠ .unreadable :=
      hnur _ (by simp [expectedFiles])
    rcases hone with h1 | h2 | h3
    · simp [verifyResults, checkFilesExist, expectedFiles, h1]
    · cases hf1 : fs "/tmp/dep_test_data.txt" with
      | missing => simp [verifyResults, checkFilesExist, expectedFiles, hf1]
      | unreadable => exact absurd hf1 hn1
      | content s => simp [verifyResults, checkFilesExist, expectedFiles, hf1, h2]
    · cases hf1 : fs "/tmp/dep_test_data.txt" with
      | missing => simp [verifyResults, checkFilesExist, expectedFiles, hf1]
      | unreadable => exact absurd hf1 hn1
      | content s =>
        cases hf2 : fs "/tmp/dep_test_processed.txt" with
        | missing => simp [verifyResults, checkFilesExist, expectedFiles, hf1, hf2]
        | unreadable => exact absurd hf2 hn2
        | content s2 => simp [verifyResults, checkFilesExist, expectedFiles, hf1, hf2, h3]
  · intro s1 s2 s3 hf1 hf2 hf3 hbad
    have hchk : checkFilesExist fs expectedFiles = .ok true := by
      simp [checkFilesExist, expectedFiles, hf1, hf2, hf3]
    have hcc : checkContents fs = false := by
      unfold checkContents
      rw [hf1, hf2, hf3]
      rcases hbad with hb | hb | hb
      · simp [hb]
      · cases hp1 : pyContainsStr s1 "test_data_123" <;> simp [hp1, hb]
      · cases hp1 : pyContainsStr s1 "test_data_123" <;>
          cases hp2 : pyContainsStr s2 "processed_test_data_123" <;>
            simp [hp1, hp2, hb]
    simp [verifyResults, hchk, hcc]
  · simp only [mainRun]
    cases hres : (submitDependentJobs sub hostname).result with
    | exn m => rfl
    | ok v =>
      obtain ⟨j1, j2, j3⟩ := v
      cases j1 with
      | none => rfl
      | some id1 =>
        cases j2 with
        | none => rfl
        | some id2 =>
          cases j3 with
          | none => rfl
          | some id3 =>
            by_cases he : id1 = "" ∨ id2 = "" ∨ id3 = ""
            · simp [he]
            · simp only [if_neg he]
              by_cases hw : (waitForJobs obs [id1, id2, id3] T).1.length ≠ 3 ∨
                  (waitForJobs obs [id1, id2, id3] T).2 ≠ []
              · simp [hw]
              · simp only [if_neg hw]
                cases vr : verifyResults fs with
                | ok b =>
                  cases b <;>
                    (cases vr2 : verifyResults fs2 with
                     | ok b2 => cases b2 <;> rfl
                     | exn m2 => rfl)
                | exn m =>
                  cases vr2 : verifyResults fs2 with
                  | ok b2 => cases b2 <;> rfl
                  | exn m2 => rfl
  · intro h0
    simp only [mainRun] at h0
    split at h0
    · simp at h0
    · split at h0
      · split at h0
        · simp at h0
        · split at h0
          · simp at h0
          · split at h0
            · simp at h0
            · simp at h0
            · assumption
      · simp at h0

/-- Witness for C8: a missing final artifact and a wrong processed
artifact each yield a failed verification; the printed status lists are
the same under both filesystems; the all-good filesystem verifies. -/
theorem c8_verification_witness :
    verifyResults fsMissingFinal = .ok false ∧
    verifyResults fsBadProcessed = .ok false ∧
    (mainRun subAllOk "h" obsAllDone 2 fsMissingFinal).2 =
      (mainRun subAllOk "h" obsAllDone 2 fsBadProcessed).2 ∧
    verifyResults fsAllGood = .ok true :=
  ⟨(c8_verification_amended subAllOk "h" obsAllDone 2 fsMissingFinal fsBadProcessed).1
     ⟨"/tmp/dep_test_final.txt", by simp [expectedFiles], rfl⟩ (by decide),
   (c8_verification_amended subAllOk "h" obsAllDone 2 fsBadProcessed fsMissingFinal).2.1
     "test_data_123" "unrelated" "Final result: analysis_complete" rfl rfl rfl
     (Or.inr (Or.inl (by decide))),
   (c8_verification_amended subAllOk "h" obsAllDone 2 fsMissingFinal fsBadProcessed).2.2.1,
   (c8_verification_amended subAllOk "h" obsAllDone 2 fsAllGood fsAllGood).2.2.2 rfl⟩

/-- Counterexample for C8 as claimed: when the first expected artifact
exists but can not be read, verify_results does not return a failed
verification — the read in its existence-check loop sits outside the
try block, so IOError propagates and the whole run aborts with an
uncaught exception rather than the clean failed result the claim
describes. -/
theorem c8_counterexample :
    verifyResults fsUnreadableData = .exn "IOError" ∧
    verifyResults fsUnreadableData ≠ .ok false ∧
    (mainRun subAllOk "h" obsAllDone 2 fsUnreadableData).1 = .exn "IOError" :=
  ⟨rfl, by decide, rfl⟩

/-- C10: run_command is total over every command outcome — it returns a
triple and never propagates an exception.  Success is True exactly for
exit code zero; a completed process reports its stripped stdout and
stderr (success False when the exit code is nonzero); a timeout maps to
(False, empty, Command timed out); any other exception maps to
(False, empty, its message). -/
theorem c10_run_command (o : CmdOutcome) (rc : Int) (out err msg : String) :
    ((runCommand o).1 = true ↔ ∃ so se, o = .completed 0 so se) ∧
    (o = .completed rc out err → rc ≠ 0 →
       runCommand o = (false, pyStrip out, pyStrip err)) ∧
    (o = .completed rc out err → runCommand o = (rc == 0, pyStrip out, pyStrip err)) ∧
    (o = .timedOut → runCommand o = (false, "", "Command timed out")) ∧
    (o = .raised msg → runCommand o = (false, "", msg)) := by
  refine ⟨⟨?_, ?_⟩, ?_, ?_, ?_, ?_⟩
  · intro h
    cases o with
    | completed rc2 so se =>
      have hrc : rc2 = 0 := by
        have hb : (rc2 == 0) = true := h
        exact beq_iff_eq.mp hb
      exact ⟨so, se, by rw [hrc]⟩
    | timedOut => simp [runCommand] at h
    | raised m => simp [runCommand] at h
  · rintro ⟨so, se, rfl⟩
    simp [runCommand]
  · rintro rfl hrc
    have hb : (rc == 0) = false := beq_eq_false_iff_ne.mpr hrc
    simp [runCommand, hb]
  · rintro rfl
    rfl
  · rintro rfl
    rfl
  · rintro rfl
    rfl

/-- Witness for C10 on one outcome of each kind. -/
theorem c10_run_command_witness :
    runCommand (.completed 7 " out " " err ") = (false, pyStrip " out ", pyStrip " err ") ∧
    runCommand .timedOut = (false, "", "Command timed out") ∧
    runCommand (.raised "boom") = (false, "", "boom") ∧
    ((runCommand (.completed 0 "x" "y")).1 = true ↔ ∃ so se,
       CmdOutcome.completed 0 "x" "y" = .completed 0 so se) :=
  ⟨(c10_run_command (.completed 7 " out " " err ") 7 " out " " err " "m").2.1 rfl (by decide),
   (c10_run_command .timedOut 0 "" "" "m").2.2.2.1 rfl,
   (c10_run_command (.raised "boom") 0 "" "" "boom").2.2.2.2 rfl,
   (c10_run_command (.completed 0 "x" "y") 0 "x" "y" "m").1⟩

theorem goodOrd_snoc (g : SpecGraph) (e : List Nat) (n : Nat)
    (hn : n ∉ e) (he : goodOrd g e) (hdeps : ∀ d ∈ g.deps n, d ∈ e) :
    goodOrd g (e ++ [n]) := by
  intro y hy d hd
  rcases List.mem_append.mp hy with hye | hyn
  · obtain ⟨hdm, hlt⟩ := he y hye d hd
    refine ⟨List.mem_append.mpr (Or.inl hdm), ?_⟩
    rw [List.indexOf_append_of_mem hdm, List.indexOf_append_of_mem hye]
    exact hlt
  · have hyn2 : y = n := by simpa using hyn
    subst hyn2
    have hdm : d ∈ e := hdeps d hd
    refine ⟨List.mem_append.mpr (Or.inl hdm), ?_⟩
    rw [List.indexOf_append_of_mem hdm, List.indexOf_append_of_not_mem hn]
    have h1 : e.indexOf d < e.length := List.indexOf_lt_length.mpr hdm
    have h2 : List.indexOf y [y] = 0 := List.indexOf_cons_self y []
    omega

theorem topoGo_sound (g : SpecGraph) :
    ∀ (fuel : Nat) (emitted remaining order : List Nat),
      (emitted ++ remaining).Nodup →
      goodOrd g emitted →
      topoGo g fuel emitted remaining = some order →
      goodOrd g order ∧ order.Perm (emitted ++ remaining) := by
  intro fuel
  induction fuel with
  | zero =>
    intro emitted remaining order hnd hgood htopo
    cases remaining with
    | nil =>
      have hord : order = emitted := by
        have : some emitted = some order := htopo
        exact (Option.some.injEq _ _ ▸ this).symm
      subst hord
      exact ⟨hgood, by simp⟩
    | cons r rs => simp [topoGo] at htopo
  | succ fuel ih =>
    intro emitted remaining order hnd hgood htopo
    cases remaining with
    | nil =>
      have hord : order = emitted := by
        have : some emitted = some order := htopo
        exact (Option.some.injEq _ _ ▸ this).symm
      subst hord
      exact ⟨hgood, by simp⟩
    | cons r rs =>
      have hunf : topoGo g (fuel + 1) emitted (r :: rs) =
          (match readyFind g emitted (r :: rs) with
           | none => none
           | some n => topoGo g fuel (emitted ++ [n]) ((r :: rs).erase n)) := rfl
      rw [hunf] at htopo
      cases hfind : readyFind g emitted (r :: rs) with
      | none => rw [hfind] at htopo; simp at htopo
      | some n =>
        rw [hfind] at htopo
        have hfind2 : (r :: rs).find? (fun m => (g.deps m).all (fun d => emitted.contains d)) =
            some n := hfind
        have hmem : n ∈ r :: rs := List.mem_of_find?_eq_some hfind2
        have hdeps : ∀ d ∈ g.deps n, d ∈ emitted := by
          simpa using List.find?_some hfind2
        have hperm1 : ((emitted ++ [n]) ++ (r :: rs).erase n).Perm (emitted ++ (r :: rs)) := by
          have hp1 : (r :: rs).Perm (n :: (r :: rs).erase n) := List.perm_cons_erase hmem
          have hp2 : (emitted ++ [n]) ++ (r :: rs).erase n =
              emitted ++ (n :: (r :: rs).erase n) := by
            rw [List.append_assoc]
            rfl
          rw [hp2]
          exact List.Perm.append_left _ hp1.symm
        have hnd2 : ((emitted ++ [n]) ++ (r :: rs).erase n).Nodup :=
          (hperm1.nodup_iff).mpr hnd
        have hnotmem : n ∉ emitted := by
          rw [List.nodup_append] at hnd
          intro hcon
          exact hnd.2.2 hcon hmem
        have hgood2 : goodOrd g (emitted ++ [n]) := goodOrd_snoc g emitted n hnotmem hgood hdeps
        obtain ⟨hgo, hp⟩ := ih (emitted ++ [n]) ((r :: rs).erase n) order hnd2 hgood2 htopo
        exact ⟨hgo, hp.trans hperm1⟩

theorem topologicalOrder_sound (g : SpecGraph) (hnd : g.nodes.Nodup) (order : List Nat)
    (h : topologicalOrder g = some order) :
    goodOrd g order ∧ order.Perm g.nodes := by
  have hres := topoGo_sound g g.nodes.length [] g.nodes order (by simpa using hnd)
    (fun y hy => absurd hy (List.not_mem_nil y)) h
  simpa using hres

theorem chain_indexOf_lt (g : SpecGraph) (order : List Nat) (hgood : goodOrd g order) :
    ∀ (p : List Nat), List.Chain' (fun a b => a ∈ g.deps b) p →
      (∀ n ∈ p, n ∈ order) → ∀ x y, p.head? = some x → p.getLast? = some y →
      2 ≤ p.length → order.indexOf x < order.indexOf y := by
  intro p
  induction p with
  | nil => intro _ _ x y hx _ _; simp at hx
  | cons a tail ih =>
    intro hchain hmem x y hx hy hlen
    have hxa : a = x := by simpa using hx
    subst hxa
    cases tail with
    | nil => simp at hlen
    | cons b t =>
      have hstep := List.chain'_cons.mp hchain
      have hab : order.indexOf a < order.indexOf b := by
        have hbo : b ∈ order := hmem b (by simp)
        obtain ⟨_, hlt⟩ := hgood b hbo a hstep.1
        exact hlt
      cases t with
      | nil =>
        have hyb : b = y := by simpa using hy
        subst hyb
        exact hab
      | cons c t2 =>
        have hby : order.indexOf b < order.indexOf y := by
          apply ih hstep.2 ?_ b y rfl ?_ ?_
          · intro m hm
            exact hmem m (List.mem_cons_of_mem _ hm)
          · rw [List.getLast?_cons_cons] at hy
            exact hy
          · simp
        omega

/-- C9 (spec-modelled): on every graph holding a dependency cycle — a
closed dependency walk of length at least two — topologicalOrder finds
no valid order and answers CycleDetected, and the Submission Coordinator
rejects the graph before issuing a single submit call: the submit trace
is empty. -/
theorem c9_cycle_detected (g : SpecGraph) (p : List Nat)
    (hnodes : g.nodes.Nodup)
    (hchain : List.Chain' (fun a b => a ∈ g.deps b) p)
    (hmem : ∀ n ∈ p, n ∈ g.nodes)
    (hlen : 2 ≤ p.length)
    (hclosed : p.head? = p.getLast?) :
    topologicalOrder g = none ∧
    submissionCoordinator g = ⟨some "CycleDetected", []⟩ := by
  have hnone : topologicalOrder g = none := by
    cases hord : topologicalOrder g with
    | none => rfl
    | some order =>
      exfalso
      obtain ⟨hgood, hperm⟩ := topologicalOrder_sound g hnodes order hord
      obtain ⟨x, hx⟩ : ∃ x, p.head? = some x := by
        cases p with
        | nil => simp at hlen
        | cons a t => exact ⟨a, rfl⟩
      have hy : p.getLast? = some x := by rw [← hclosed]; exact hx
      have hmem2 : ∀ n ∈ p, n ∈ order := fun n hn => (hperm.mem_iff).mpr (hmem n hn)
      have hlt := chain_indexOf_lt g order hgood p hchain hmem2 x x hx hy hlen
      omega
  refine ⟨hnone, ?_⟩
  unfold submissionCoordinator
  rw [hnone]

/-- Witness for C9 on the two node cycle 0 and 1, walked 0, 1, 0. -/
theorem c9_cycle_detected_witness :
    topologicalOrder cyclicGraphEx = none ∧
    submissionCoordinator cyclicGraphEx = ⟨some "CycleDetected", []⟩ :=
  c9_cycle_detected cyclicGraphEx [0, 1, 0] (by decide)
    (List.chain'_cons.mpr ⟨by decide, List.chain'_cons.mpr ⟨by decide,
      List.chain'_singleton 0⟩⟩)
    (by decide) (by decide) rfl
